import Mathlib

/-!
Verification development for the pikaur upgrade-report rendering engine
(`pikaur/print_department.py`).

The Python source is shallowly embedded below.  Pure helper primitives that
the source imports from sibling modules (`pprint.color_line`,
`pprint.bold_line`, `pprint.format_paragraph`, `i18n._` / `_n`,
`version.get_common_version` / `get_version_diff`, `config` / terminal
queries) are not part of the shown source; they are modelled from the
specification and marked as such.  Python strings are modelled as Lean
`String` (sequences of code points), Python integers as `Int`/`Nat`,
Python `None` on optional string fields as the empty string (the source
only ever uses them through truthiness or `x or ''`).
-/

namespace Pikaur

/-- The ASCII escape character that starts every terminal color sequence. -/
def escChar : Char := '\x1b'

/-- One decimal digit character.  Helper for the model of Python's
integer-to-string conversion. -/
def digitCh (k : Nat) : Char :=
  if k = 0 then '0' else if k = 1 then '1' else if k = 2 then '2'
  else if k = 3 then '3' else if k = 4 then '4' else if k = 5 then '5'
  else if k = 6 then '6' else if k = 7 then '7' else if k = 8 then '8'
  else if k = 9 then '9' else '*'

/-- Digits (most significant first) of a natural number, with explicit
structural fuel (any fuel at least the number of digits gives the full
digit string). -/
def natReprAux : Nat → Nat → List Char
  | 0, _ => []
  | f + 1, n =>
    if n < 10 then [digitCh n]
    else natReprAux f (n / 10) ++ [digitCh (n % 10)]

/-- Modelled from the spec: Python's `str` of a non-negative integer
(decimal digit string, no sign, no padding). -/
def natRepr (n : Nat) : String :=
  if n = 0 then "0" else String.mk (natReprAux n n)

/-- Modelled from the spec: `pprint.color_line` — wraps a string in the
terminal escape sequence selecting color `n`, followed by a reset. -/
def color_line (line : String) (n : Nat) : String :=
  "\x1b[" ++ natRepr n ++ "m" ++ line ++ "\x1b[0m"

/-- Modelled from the spec: `pprint.color_line` with `reset=False` —
the color escape is emitted without the trailing reset sequence. -/
def color_line_noreset (line : String) (n : Nat) : String :=
  "\x1b[" ++ natRepr n ++ "m" ++ line

/-- Modelled from the spec: `pprint.bold_line` — wraps a string in the
bold escape sequence followed by a reset. -/
def bold_line (line : String) : String :=
  "\x1b[1m" ++ line ++ "\x1b[0m"

/-- Modelled from the spec: `pprint.format_paragraph` — the wrapped,
indented rendering of a description paragraph (the exact wrapping
algorithm is external; the model indents the text, adding no escapes). -/
def format_paragraph (s : String) : String := "    " ++ s

/-- Modelled from the spec: the localisation backend's
`pluralize(singular, plural, count)` (`i18n._n`): singular exactly when
the count is one.  `i18n._` (translate) is the identity. -/
def ngettext (sing plur : String) (n : Nat) : String :=
  if n = 1 then sing else plur

/-- Python's `sep.join(xs)`. -/
def joinSep (sep : String) : List String → String
  | [] => ""
  | [x] => x
  | x :: y :: xs => x ++ sep ++ joinSep sep (y :: xs)

/-- `' ' * n` for a Python integer `n` (empty when `n ≤ 0`). -/
def spaces (n : Int) : String :=
  String.mk (List.replicate n.toNat ' ')

/-- Left-pad a string with `'0'` up to width `w`
(Python's `'{:0Nd}'` padding step). -/
def padZeros (w : Nat) (s : String) : String :=
  String.mk (List.replicate (w - s.length) '0') ++ s

/-- Python's `'{:04d}'.format(n)`: decimal rendering zero-padded to a
total width of four characters, the sign included for negatives. -/
def pad4 (n : Int) : String :=
  if 0 ≤ n then padZeros 4 (natRepr n.toNat)
  else "-" ++ padZeros 3 (natRepr (-n).toNat)

/-- The four decimal digits (most significant first) of a number below
10000, as characters. -/
def dig4 (n : Nat) : List Char :=
  [digitCh (n / 1000), digitCh (n / 100 % 10), digitCh (n / 10 % 10),
   digitCh (n % 10)]

/-! ### Python string comparison

Python compares `str` values lexicographically by code point.  The
sort in `pretty_format_upgradeable` uses this order on its sort keys. -/

/-- Python's `<` on strings, on the underlying code-point lists. -/
def pyStrLtL : List Char → List Char → Bool
  | [], [] => false
  | [], _ :: _ => true
  | _ :: _, [] => false
  | a :: as, b :: bs =>
    if a.toNat < b.toNat then true
    else if b.toNat < a.toNat then false
    else pyStrLtL as bs

/-- Python's `<` on strings. -/
def pyStrLt (a b : String) : Bool := pyStrLtL a.data b.data

/-- Python's `<=` on strings (total order: `a <= b ↔ ¬ b < a`). -/
def pyStrLe (a b : String) : Bool := !(pyStrLt b a)

/-! ### Version diff (`pikaur/version.py`, modelled from the spec) -/

/-- The version-delimiter characters at whose granularity version diffs
are reported. -/
def versionDelims : List Char := ['.', '-', ':', '+']

/-- Longest common character prefix of two code-point lists. -/
def commonCharPart : List Char → List Char → List Char
  | a :: as, b :: bs => if a = b then a :: commonCharPart as bs else []
  | _, _ => []

/-- Longest prefix of `cs` that ends with (and includes) a version
delimiter; empty when `cs` holds no delimiter. -/
def keepToLastDelim (cs : List Char) : List Char :=
  (cs.reverse.dropWhile (fun c => ¬ c ∈ versionDelims)).reverse

/-- Split a code-point list at the version delimiters (Python's
`re.split` on the delimiter class: `"1.2.3"` gives three segments, the
empty string one empty segment). -/
def splitSegs (cs : List Char) : List (List Char) :=
  cs.foldr (fun c r =>
    if c ∈ versionDelims then [] :: r
    else
      match r with
      | [] => [[c]]
      | seg :: rest => (c :: seg) :: rest) [[]]

/-- Delimiter-separated segments of a version string. -/
def verSegs (s : String) : List String :=
  (splitSegs s.data).map String.mk

/-- Number of segment positions at which two segment lists differ
(missing segments count as differing). -/
def diffCount : List String → List String → Nat
  | [], ys => ys.length
  | _ :: xs, [] => 1 + diffCount xs []
  | x :: xs, y :: ys => (if x = y then 0 else 1) + diffCount xs ys

/-- Modelled from the spec: `version.get_common_version` — the longest
common prefix of the two version strings ending at the last matching
delimiter before the first mismatch, together with the diff weight (the
count of delimiter-separated segments that differ; `0` for identical
strings, maximal when either string is empty). -/
def get_common_version (a b : String) : String × Nat :=
  if a = b then (a, 0)
  else (String.mk (keepToLastDelim (commonCharPart a.data b.data)),
        diffCount (verSegs a) (verSegs b))

/-- Modelled from the spec: `version.get_version_diff` — the remainder
of `full` after removing the shared part. -/
def get_version_diff (full common : String) : String :=
  String.mk (full.data.drop common.length)

/-! ### Data model (`core.InstallInfo` and the configuration knobs) -/

/-- One package's pending update (`core.InstallInfo`).  Optional string
fields are the empty string when absent; `required_by` is modelled by the
dependants' package names (the source only reads `p.package.name`);
`devel_pkg_age_days` is `0` when absent (the source only tests its
truthiness). -/
structure InstallInfo where
  name : String
  current_version : String := ""
  new_version : String := ""
  repository : String := ""
  required_by : List String := []
  provided_by : List String := []
  members_of : List String := []
  replaces : List String := []
  description : String := ""
  devel_pkg_age_days : Nat := 0
deriving DecidableEq, Repr

/-- The process-wide configuration and terminal state read once per
render call (`PikaurConfig` color indices, `sync.UpgradeSorting`,
`sync.AlwaysShowPkgOrigin`, and `get_term_width`). -/
structure Config where
  version_color : Nat
  old_color : Nat
  new_color : Nat
  upgrade_sorting : String
  always_show_pkg_origin : Bool
  term_width : Int
deriving DecidableEq, Repr

/-- `GROUP_COLOR` from the source. -/
def GROUP_COLOR : Nat := 4

/-- `REPLACEMENTS_COLOR` from the source. -/
def REPLACEMENTS_COLOR : Nat := 14

/-! ### `pretty_format_upgradeable` and its inner `pretty_format` -/

/-- `_color_line`: `color_line` when color is enabled, identity
otherwise (the source swaps in an argument-dropping lambda). -/
def cl (color : Bool) (line : String) (n : Nat) : String :=
  if color then color_line line n else line

/-- `_color_line` with `reset=False` under the same color switch. -/
def clNR (color : Bool) (line : String) (n : Nat) : String :=
  if color then color_line_noreset line n else line

/-- `_bold_line`: `bold_line` when color is enabled, identity otherwise. -/
def bl (color : Bool) (line : String) : String :=
  if color then bold_line line else line

/-- `_color_line(' ({})', n).format(inner)`: the parenthesised decoration
template, colorised as a whole before substitution. -/
def fmtParen (color : Bool) (n : Nat) (inner : String) : String :=
  if color then "\x1b[" ++ natRepr n ++ "m" ++ " (" ++ inner ++ ")" ++ "\x1b[0m"
  else " (" ++ inner ++ ")"

/-- `column_width = min(int(get_term_width() / 2.5), 37)`.  The exact
quotient `w / 2.5` equals `2w/5`; Python's `int()` truncates it toward
zero, which is `Int.tdiv`. -/
def column_width (termWidth : Int) : Int :=
  min (Int.tdiv (2 * termWidth) 5) 37

/-- The sort key of one record (`sort_by` in the source): the default
diff-weight key `'{:04d}{}'.format(9999 - diff_weight, name)`, overridden
to the bare name for `UpgradeSorting == 'pkgname'` and to
`repository + name` for `'repo'`. -/
def sortByOf (cfg : Config) (pkg : InstallInfo) : String :=
  if cfg.upgrade_sorting = "pkgname" then pkg.name
  else if cfg.upgrade_sorting = "repo" then pkg.repository ++ pkg.name
  else
    pad4 (9999 - ((get_common_version pkg.current_version pkg.new_version).2 : Int))
      ++ pkg.name

/-- The bolded package name with its origin marker (`pkg_name` /
`pkg_len` after the repository-prefix step of `pretty_format`): the
`repository + '/'` marker in color 13 when `(print_repo or verbose)` and
the repository is known, else the `'aur/'` marker in color 9 when
`print_repo`.  The second component is the visible length `pkg_len`. -/
def repoMarkedName (color printRepo verbose : Bool) (pkg : InstallInfo) :
    String × Nat :=
  let base := bl color pkg.name
  if (printRepo = true ∨ verbose = true) ∧ pkg.repository ≠ "" then
    (cl color (pkg.repository ++ "/") 13 ++ base,
     pkg.name.length + pkg.repository.length + 1)
  else if printRepo then (cl color "aur/" 9 ++ base, pkg.name.length + 4)
  else (base, pkg.name.length)

/-- The fully decorated name column of one line (`pkg_name` / `pkg_len`
after the required-by, provided-by, group, and replaces decorations; the
`'# '` marker is prepended when the record replaces packages and color
is disabled). -/
def decoratedName (color printRepo verbose : Bool) (pkg : InstallInfo) :
    String × Nat :=
  let b := repoMarkedName color printRepo verbose pkg
  let depColor : Nat := 3
  let rbPlain := " (for " ++ joinSep ", " pkg.required_by ++ ")"
  let rbColored := fmtParen color depColor
    ("for " ++
      (joinSep (cl color ", " depColor)
          (pkg.required_by.map (fun s => cl color s (depColor + 8))) ++
        clNR color "" depColor))
  let n1 := if pkg.required_by ≠ [] then b.1 ++ rbColored else b.1
  let l1 := if pkg.required_by ≠ [] then b.2 + rbPlain.length else b.2
  let pvPlain := " (" ++ joinSep " # " pkg.provided_by ++ ")"
  let n2 := if pkg.provided_by ≠ [] then n1 ++ cl color pvPlain 2 else n1
  let l2 := if pkg.provided_by ≠ [] then l1 + pvPlain.length else l1
  let grpWord := if pkg.members_of.length = 1 then " group" else " groups"
  let moPlain := " (" ++ joinSep ", " pkg.members_of ++ grpWord ++ ")"
  let moColored := fmtParen color GROUP_COLOR
    ((joinSep (cl color ", " GROUP_COLOR)
        (pkg.members_of.map (fun g => cl color g (GROUP_COLOR + 8))) ++
      clNR color "" GROUP_COLOR) ++ grpWord)
  let n3 := if pkg.members_of ≠ [] then n2 ++ cl color moColored GROUP_COLOR else n2
  let l3 := if pkg.members_of ≠ [] then l2 + moPlain.length else l2
  let rpPlain := " (replaces " ++ joinSep ", " pkg.replaces ++ ")"
  let n4 :=
    if pkg.replaces ≠ [] then
      let withRp := n3 ++ cl color rpPlain REPLACEMENTS_COLOR
      if color = false then "# " ++ withRp else withRp
    else n3
  let l4 := if pkg.replaces ≠ [] then l3 + rpPlain.length else l3
  (n4, l4)

/-- `days_old`: `' (N days old)'` when the devel package age is present. -/
def daysOld (pkg : InstallInfo) : String :=
  if pkg.devel_pkg_age_days ≠ 0 then
    " (" ++ natRepr pkg.devel_pkg_age_days ++ " days old)"
  else ""

/-- `version_separator`: the arrow `' -> '`, omitted exactly when both
versions are empty (Python truthiness of `current_version or
new_version`). -/
def version_separator (pkg : InstallInfo) : String :=
  if pkg.current_version ≠ "" ∨ pkg.new_version ≠ "" then " -> " else ""

/-- `spacing`: at least one space, padding the name column out to the
computed column width. -/
def spacingFor (termWidth : Int) (pkgLen : Nat) : String :=
  spaces (max 1 (column_width termWidth - (pkgLen : Int)))

/-- `spacing2`: at least one space before the version arrow, subtracting
the fixed 18-character decoration allowance and the raw current-version
length. -/
def spacing2For (termWidth : Int) (curLen pkgLen : Nat) : String :=
  spaces (max 1 (column_width termWidth - 18 - (curLen : Int) -
    max (-1) ((pkgLen : Int) - column_width termWidth)))

/-- The `verbose` template field: the wrapped description on a following
line, when verbose and a description is present. -/
def verbosePart (verbose : Bool) (pkg : InstallInfo) : String :=
  if verbose = true ∧ pkg.description ≠ "" then
    "\n" ++ format_paragraph pkg.description
  else ""

/-- One rendered line of `pretty_format` under the default template
`' {pkg_name}{spacing} {current_version}{spacing2}{version_separator}{new_version}{days_old}{verbose}'`. -/
def renderedLine (cfg : Config) (verbose printRepo color : Bool)
    (pkg : InstallInfo) : String :=
  let common := (get_common_version pkg.current_version pkg.new_version).1
  let dn := decoratedName color printRepo verbose pkg
  let currentRendered :=
    cl color common cfg.version_color ++
      cl color (get_version_diff pkg.current_version common) cfg.old_color
  let newRendered :=
    cl color common cfg.version_color ++
      cl color (get_version_diff pkg.new_version common) cfg.new_color
  " " ++ dn.1 ++ spacingFor cfg.term_width dn.2 ++ " " ++ currentRendered ++
    spacing2For cfg.term_width pkg.current_version.length dn.2 ++
    version_separator pkg ++ newRendered ++ daysOld pkg ++ verbosePart verbose pkg

/-- The `(line, sort_by)` pairs of `pretty_format` over the input order. -/
def upgradeablePairs (cfg : Config) (verbose printRepo color : Bool)
    (pkgs : List InstallInfo) : List (String × String) :=
  pkgs.map (fun p => (renderedLine cfg verbose printRepo color p, sortByOf cfg p))

/-- The comparison used by `sorted(..., key=lambda x: x[1])`. -/
def upgradeLe (a b : String × String) : Bool := pyStrLe a.2 b.2

/-- The pairs after Python's stable ascending sort on the sort key. -/
def upgradeableSorted (cfg : Config) (verbose printRepo color : Bool)
    (pkgs : List InstallInfo) : List (String × String) :=
  (upgradeablePairs cfg verbose printRepo color pkgs).mergeSort upgradeLe

/-- `pretty_format_upgradeable`: the sorted rendered lines joined by
newlines. -/
def pretty_format_upgradeable (cfg : Config) (pkgs : List InstallInfo)
    (verbose printRepo color : Bool) : String :=
  joinSep "\n" ((upgradeableSorted cfg verbose printRepo color pkgs).map
    (fun x => x.1))

/-! ### `pretty_format_sysupgrade` -/

/-- The resolved upgrade data handed to `pretty_format_sysupgrade`
(`install_info_fetcher.InstallInfoFetcher`, at the interface the source
reads).  The three "new dependency" fields are `Optional` lists in the
source; `None` and `[]` are indistinguishable through the truthiness
tests applied to them, so they are modelled as plain lists. -/
structure InstallInfoFetcher where
  repo_packages_install_info : List InstallInfo := []
  thirdparty_repo_packages_install_info : List InstallInfo := []
  aur_updates_install_info : List InstallInfo := []
  repo_replacements_install_info : List InstallInfo := []
  thirdparty_repo_replacements_install_info : List InstallInfo := []
  new_repo_deps_install_info : List InstallInfo := []
  new_thirdparty_repo_deps_install_info : List InstallInfo := []
  aur_deps_install_info : List InstallInfo := []
deriving DecidableEq, Repr

/-- One category header line,
`'\n{} {}'.format(_color_line('::', idx), _bold_line(_n(sing, plur, n)))`. -/
def headerLine (color : Bool) (idx : Nat) (sing plur : String) (n : Nat) :
    String :=
  "\n" ++ cl color "::" idx ++ " " ++ bl color (ngettext sing plur n)

/-- The `result` list built by `pretty_format_sysupgrade` before the
trailing `['']`: for each non-empty category, in the source's textual
order, a header line followed by the formatted body.  Under manual
package selection, color is disabled and the three new-dependency lists
are dropped (`None`). -/
def sysupgradeLines (cfg : Config) (ii : InstallInfoFetcher)
    (verbose manual : Bool) : List String :=
  let color := !manual
  let new_repo_deps := if manual then [] else ii.new_repo_deps_install_info
  let new_thirdparty_repo_deps :=
    if manual then [] else ii.new_thirdparty_repo_deps_install_info
  let new_aur_deps := if manual then [] else ii.aur_deps_install_info
  (if ii.repo_replacements_install_info ≠ [] then
    [headerLine color 12
      "Repository package suggested as a replacement:"
      "Repository packages suggested as a replacement:"
      ii.repo_replacements_install_info.length,
     pretty_format_upgradeable cfg ii.repo_replacements_install_info
       verbose cfg.always_show_pkg_origin color]
   else []) ++
  (if ii.thirdparty_repo_replacements_install_info ≠ [] then
    [headerLine color 12
      "Third-party repository package suggested as a replacement:"
      "Third-party repository packages suggested as a replacement:"
      ii.repo_packages_install_info.length,
     pretty_format_upgradeable cfg ii.thirdparty_repo_replacements_install_info
       verbose cfg.always_show_pkg_origin color]
   else []) ++
  (if ii.repo_packages_install_info ≠ [] then
    [headerLine color 12
      "Repository package will be installed:"
      "Repository packages will be installed:"
      ii.repo_packages_install_info.length,
     pretty_format_upgradeable cfg ii.repo_packages_install_info
       verbose cfg.always_show_pkg_origin color]
   else []) ++
  (if new_repo_deps ≠ [] then
    [headerLine color 11
      "New dependency will be installed from repository:"
      "New dependencies will be installed from repository:"
      new_repo_deps.length,
     pretty_format_upgradeable cfg new_repo_deps
       verbose cfg.always_show_pkg_origin color]
   else []) ++
  (if ii.thirdparty_repo_packages_install_info ≠ [] then
    [headerLine color 12
      "Third-party repository package will be installed:"
      "Third-party repository packages will be installed:"
      ii.thirdparty_repo_packages_install_info.length,
     pretty_format_upgradeable cfg ii.thirdparty_repo_packages_install_info
       verbose true color]
   else []) ++
  (if new_thirdparty_repo_deps ≠ [] then
    [headerLine color 11
      "New dependency will be installed from third-party repository:"
      "New dependencies will be installed from third-party repository:"
      new_thirdparty_repo_deps.length,
     pretty_format_upgradeable cfg new_thirdparty_repo_deps
       verbose cfg.always_show_pkg_origin color]
   else []) ++
  (if ii.aur_updates_install_info ≠ [] then
    [headerLine color 14
      "AUR package will be installed:"
      "AUR packages will be installed:"
      ii.aur_updates_install_info.length,
     pretty_format_upgradeable cfg ii.aur_updates_install_info
       verbose false color]
   else []) ++
  (if new_aur_deps ≠ [] then
    [headerLine color 11
      "New dependency will be installed from AUR:"
      "New dependencies will be installed from AUR:"
      new_aur_deps.length,
     pretty_format_upgradeable cfg new_aur_deps
       verbose false color]
   else [])

/-- `pretty_format_sysupgrade`: the report text,
`'\n'.join(result + [''])`. -/
def pretty_format_sysupgrade (cfg : Config) (ii : InstallInfoFetcher)
    (verbose manual : Bool) : String :=
  joinSep "\n" (sysupgradeLines cfg ii verbose manual ++ [""])

/-- `pretty_format_repo_name`: the colorised `repo/` marker whose color
is a hash of the repository name into the palette `10..14`. -/
def pretty_format_repo_name (repo_name : String) : String :=
  color_line (repo_name ++ "/") (repo_name.length % 5 + 10)

/-! ### `print_package_search_results` -/

/-- An AUR search record (`aur.AURPackageInfo`, at the interface the
source reads): votes and popularity metrics are optional, as is the
out-of-date timestamp.  AUR records carry no `groups` attribute. -/
structure AURPackageInfo where
  name : String
  version : String := ""
  desc : String := ""
  numvotes : Option Int := none
  popularity : Option ℚ := none
  outofdate : Option Nat := none
deriving DecidableEq, Repr

/-- A search record: AUR origin (`aur.AURPackageInfo`) or repository
origin (`pyalpm.Package`, read through `name`, `version`, `desc`,
`db.name` and `groups`). -/
inductive SearchPkg
  | aur (info : AURPackageInfo)
  | repo (name version desc db_name : String) (groups : List String)
deriving DecidableEq, Repr

/-- The record's displayed name. -/
def SearchPkg.pkgName : SearchPkg → String
  | .aur i => i.name
  | .repo n _ _ _ _ => n

/-- The record's displayed version. -/
def SearchPkg.pkgVersion : SearchPkg → String
  | .aur i => i.version
  | .repo _ v _ _ _ => v

/-- The record's description. -/
def SearchPkg.pkgDesc : SearchPkg → String
  | .aur i => i.desc
  | .repo _ _ d _ _ => d

/-- `get_sort_key`: `(numvotes + 1) * (popularity + 1)` for an AUR
record carrying both metrics, the neutral key `1` otherwise (Python's
`float` keys are modelled as rationals). -/
def get_sort_key : SearchPkg → ℚ
  | .aur i =>
    match i.numvotes, i.popularity with
    | some v, some p => ((v : ℚ) + 1) * (p + 1)
    | _, _ => 1
  | .repo _ _ _ _ _ => 1

/-- The comparison of `sorted(..., key=get_sort_key, reverse=True)`:
stable descending order on the key. -/
def searchGe (a b : SearchPkg) : Bool := decide (get_sort_key b ≤ get_sort_key a)

/-- The search records after the stable descending sort. -/
def searchSorted (pkgs : List SearchPkg) : List SearchPkg :=
  pkgs.mergeSort searchGe

/-- Modelled from the spec: the human-readable date formatted from the
out-of-date timestamp (`datetime.fromtimestamp(...).strftime('%Y/%m/%d')`,
an external calendar computation abstracted by its input). -/
def dateStr (ts : Nat) : String := natRepr ts

/-- Modelled from the spec: Python's `'{:.2f}'` rendering of the
popularity metric (two decimal places; external float formatting
approximated by truncation, irrelevant to the verified claims). -/
def fmt2f (q : ℚ) : String :=
  natRepr (Int.toNat ⌊q⌋) ++ "." ++
    padZeros 2 (natRepr (Int.toNat (⌊q * 100⌋ - ⌊q⌋ * 100)))

/-- The enumeration field `idx` of one search result line:
`bold_line(f'{pkg_idx+enumerate_from}) ')` when enumeration is on. -/
def searchIdxStr (enumerated : Bool) (enumerate_from pkg_idx : Nat) : String :=
  if enumerated then bold_line (natRepr (pkg_idx + enumerate_from) ++ ") ")
  else ""

/-- The non-quiet main line of one search result (the
`'{}{}{} {} {}{}{}'` template of the source). -/
def searchLine (cfg : Config) (locals : List (String × String))
    (enumerated : Bool) (enumerate_from pkg_idx : Nat) (pkg : SearchPkg) :
    String :=
  let idx := searchIdxStr enumerated enumerate_from pkg_idx
  let repoStr :=
    match pkg with
    | .repo _ _ _ db _ => pretty_format_repo_name db
    | .aur _ => color_line "aur/" 9
  let groups :=
    match pkg with
    | .repo _ _ _ _ gs =>
      if gs ≠ [] then color_line ("(" ++ joinSep " " gs ++ ") ") GROUP_COLOR
      else ""
    | .aur _ => ""
  let installed :=
    match (locals.lookup pkg.pkgName) with
    | some v =>
      if pkg.pkgVersion ≠ v then
        color_line ("[installed: " ++ v ++ "]" ++ " ") 14
      else color_line ("[installed]" ++ " ") 14
    | none => ""
  let rating :=
    match pkg with
    | .aur i =>
      match i.numvotes, i.popularity with
      | some v, some p =>
        color_line ("(" ++ (if v < 0 then "-" ++ natRepr (-v).toNat
          else natRepr v.toNat) ++ ", " ++ fmt2f p ++ ")") 3
      | _, _ => ""
    | .repo _ _ _ _ _ => ""
  let versionPair :=
    match pkg with
    | .aur i =>
      match i.outofdate with
      | some ts =>
        (i.version ++ " [" ++ "outofdate" ++ ": " ++ dateStr ts ++ "]",
         cfg.old_color)
      | none => (i.version, cfg.version_color)
    | .repo _ v _ _ _ => (v, cfg.version_color)
  idx ++ repoStr ++ bold_line pkg.pkgName ++ " " ++
    color_line versionPair.1 versionPair.2 ++ " " ++ groups ++ installed ++
    rating

/-- `print_package_search_results`: the sequence of emitted lines — for
each record of the sorted output, the bare name in quiet mode, otherwise
the main line followed by the wrapped description. -/
def print_package_search_results (cfg : Config) (pkgs : List SearchPkg)
    (locals : List (String × String)) (quiet enumerated : Bool)
    (enumerate_from : Nat) : List String :=
  (searchSorted pkgs).enum.flatMap (fun ip =>
    if quiet then [ip.2.pkgName]
    else [searchLine cfg locals enumerated enumerate_from ip.1 ip.2,
          format_paragraph ip.2.pkgDesc])

/-! ### The category view of the sysupgrade report (the specification's
reading of the report structure, to be compared with the code) -/

/-- The eight named report categories of the specification. -/
inductive UpgradeCategory
  | repoReplacement
  | thirdpartyReplacement
  | repoUpdate
  | repoNewDep
  | thirdpartyUpdate
  | thirdpartyNewDep
  | aurUpdate
  | aurNewDep
deriving DecidableEq, Repr

/-- The fixed emission order claimed by the specification. -/
def categoryOrderList : List UpgradeCategory :=
  [.repoReplacement, .thirdpartyReplacement, .repoUpdate, .repoNewDep,
   .thirdpartyUpdate, .thirdpartyNewDep, .aurUpdate, .aurNewDep]

/-- The records carried by one category (the new-dependency categories
are emptied under manual package selection). -/
def categoryPackages (ii : InstallInfoFetcher) (manual : Bool) :
    UpgradeCategory → List InstallInfo
  | .repoReplacement => ii.repo_replacements_install_info
  | .thirdpartyReplacement => ii.thirdparty_repo_replacements_install_info
  | .repoUpdate => ii.repo_packages_install_info
  | .repoNewDep => if manual then [] else ii.new_repo_deps_install_info
  | .thirdpartyUpdate => ii.thirdparty_repo_packages_install_info
  | .thirdpartyNewDep =>
    if manual then [] else ii.new_thirdparty_repo_deps_install_info
  | .aurUpdate => ii.aur_updates_install_info
  | .aurNewDep => if manual then [] else ii.aur_deps_install_info

/-- The header the code emits for one category (for the third-party
replacement category the code passes the repository-updates count to the
pluraliser; see the claim about header pluralization). -/
def categoryHeader (ii : InstallInfoFetcher) (manual : Bool) :
    UpgradeCategory → String
  | .repoReplacement => headerLine (!manual) 12
      "Repository package suggested as a replacement:"
      "Repository packages suggested as a replacement:"
      ii.repo_replacements_install_info.length
  | .thirdpartyReplacement => headerLine (!manual) 12
      "Third-party repository package suggested as a replacement:"
      "Third-party repository packages suggested as a replacement:"
      ii.repo_packages_install_info.length
  | .repoUpdate => headerLine (!manual) 12
      "Repository package will be installed:"
      "Repository packages will be installed:"
      ii.repo_packages_install_info.length
  | .repoNewDep => headerLine (!manual) 11
      "New dependency will be installed from repository:"
      "New dependencies will be installed from repository:"
      (categoryPackages ii manual .repoNewDep).length
  | .thirdpartyUpdate => headerLine (!manual) 12
      "Third-party repository package will be installed:"
      "Third-party repository packages will be installed:"
      ii.thirdparty_repo_packages_install_info.length
  | .thirdpartyNewDep => headerLine (!manual) 11
      "New dependency will be installed from third-party repository:"
      "New dependencies will be installed from third-party repository:"
      (categoryPackages ii manual .thirdpartyNewDep).length
  | .aurUpdate => headerLine (!manual) 14
      "AUR package will be installed:"
      "AUR packages will be installed:"
      ii.aur_updates_install_info.length
  | .aurNewDep => headerLine (!manual) 11
      "New dependency will be installed from AUR:"
      "New dependencies will be installed from AUR:"
      (categoryPackages ii manual .aurNewDep).length

/-- The `print_repo` flag each category's body is rendered with. -/
def categoryPrintRepo (cfg : Config) : UpgradeCategory → Bool
  | .thirdpartyUpdate => true
  | .aurUpdate => false
  | .aurNewDep => false
  | _ => cfg.always_show_pkg_origin

/-- One category's formatted body. -/
def categoryBody (cfg : Config) (ii : InstallInfoFetcher)
    (verbose manual : Bool) (c : UpgradeCategory) : String :=
  pretty_format_upgradeable cfg (categoryPackages ii manual c) verbose
    (categoryPrintRepo cfg c) (!manual)

/-- The non-empty categories, in the specification's fixed order. -/
def emittedCategories (ii : InstallInfoFetcher) (manual : Bool) :
    List UpgradeCategory :=
  categoryOrderList.filter (fun c => !(categoryPackages ii manual c).isEmpty)

/-- The report lines as the specification describes them: for each
non-empty category in the fixed order, its header followed by its body. -/
def sysupgradeBlocks (cfg : Config) (ii : InstallInfoFetcher)
    (verbose manual : Bool) : List String :=
  (emittedCategories ii manual).flatMap (fun c =>
    [categoryHeader ii manual c, categoryBody cfg ii verbose manual c])

/-! Escape-sequence freedom.  `escFree s` says the string contains no
terminal escape character, hence no color escape sequence. -/

/-- No terminal escape character occurs in the string. -/
def escFree (s : String) : Prop := ∀ c ∈ s.data, c ≠ escChar

instance (s : String) : Decidable (escFree s) := by
  unfold escFree; infer_instance

/-- All string content of one update record is escape free. -/
def InstallInfo.EscFree (pkg : InstallInfo) : Prop :=
  escFree pkg.name ∧ escFree pkg.current_version ∧ escFree pkg.new_version ∧
  escFree pkg.repository ∧ (∀ s ∈ pkg.required_by, escFree s) ∧
  (∀ s ∈ pkg.provided_by, escFree s) ∧ (∀ s ∈ pkg.members_of, escFree s) ∧
  (∀ s ∈ pkg.replaces, escFree s) ∧ escFree pkg.description

instance (pkg : InstallInfo) : Decidable pkg.EscFree := by
  unfold InstallInfo.EscFree; infer_instance

/-- All string content of the resolved upgrade data is escape free. -/
def InstallInfoFetcher.EscFree (ii : InstallInfoFetcher) : Prop :=
  (∀ p ∈ ii.repo_packages_install_info, p.EscFree) ∧
  (∀ p ∈ ii.thirdparty_repo_packages_install_info, p.EscFree) ∧
  (∀ p ∈ ii.aur_updates_install_info, p.EscFree) ∧
  (∀ p ∈ ii.repo_replacements_install_info, p.EscFree) ∧
  (∀ p ∈ ii.thirdparty_repo_replacements_install_info, p.EscFree) ∧
  (∀ p ∈ ii.new_repo_deps_install_info, p.EscFree) ∧
  (∀ p ∈ ii.new_thirdparty_repo_deps_install_info, p.EscFree) ∧
  (∀ p ∈ ii.aur_deps_install_info, p.EscFree)

instance (ii : InstallInfoFetcher) : Decidable ii.EscFree := by
  unfold InstallInfoFetcher.EscFree; infer_instance

/-- The decorated name column as the specification describes it, without
the no-color replaces hash marker — a reference definition following the
specification's wording, to be compared with `decoratedName`. -/
def decoratedNameNoHash (color printRepo verbose : Bool) (pkg : InstallInfo) :
    String :=
  let b := repoMarkedName color printRepo verbose pkg
  let depColor : Nat := 3
  let rbColored := fmtParen color depColor
    ("for " ++
      (joinSep (cl color ", " depColor)
          (pkg.required_by.map (fun s => cl color s (depColor + 8))) ++
        clNR color "" depColor))
  let n1 := if pkg.required_by ≠ [] then b.1 ++ rbColored else b.1
  let pvPlain := " (" ++ joinSep " # " pkg.provided_by ++ ")"
  let n2 := if pkg.provided_by ≠ [] then n1 ++ cl color pvPlain 2 else n1
  let grpWord := if pkg.members_of.length = 1 then " group" else " groups"
  let moColored := fmtParen color GROUP_COLOR
    ((joinSep (cl color ", " GROUP_COLOR)
        (pkg.members_of.map (fun g => cl color g (GROUP_COLOR + 8))) ++
      clNR color "" GROUP_COLOR) ++ grpWord)
  let n3 :=
    if pkg.members_of ≠ [] then n2 ++ cl color moColored GROUP_COLOR else n2
  let rpPlain := " (replaces " ++ joinSep ", " pkg.replaces ++ ")"
  if pkg.replaces ≠ [] then n3 ++ cl color rpPlain REPLACEMENTS_COLOR else n3

/-! ### Concrete sample inputs used by the witnesses below -/

/-- A sample configuration (default diff-weight sorting, 80 columns). -/
def sampleCfg : Config :=
  { version_color := 10, old_color := 11, new_color := 9,
    upgrade_sorting := "versiondiff", always_show_pkg_origin := false,
    term_width := 80 }

/-- A sample update whose versions differ in two segments. -/
def samplePkgFoo : InstallInfo :=
  { name := "foo", current_version := "1.2.3", new_version := "1.3.0" }

/-- A sample update whose versions differ in one segment. -/
def samplePkgBar : InstallInfo :=
  { name := "bar", current_version := "2.0", new_version := "2.1" }

/-- Sample resolved upgrade data: one repository update and one new
repository dependency. -/
def sampleFetcher : InstallInfoFetcher :=
  { repo_packages_install_info := [samplePkgFoo],
    new_repo_deps_install_info := [{ name := "dep" }] }

/-- Failing input for the header-pluralization claim: exactly one
third-party replacement record and no repository updates. -/
def c4Fetcher : InstallInfoFetcher :=
  { thirdparty_repo_replacements_install_info := [{ name := "x" }] }

/-- An update record of known repository origin. -/
def c8Pkg : InstallInfo := { name := "x", repository := "extra" }

/-- A search record of AUR origin carrying no vote or popularity
metrics. -/
def c9Pkg : SearchPkg := SearchPkg.aur { name := "x", version := "1" }

/-- An AUR search record with both relevance metrics. -/
def c5Aur : AURPackageInfo :=
  { name := "high", numvotes := some 10, popularity := some 2 }

/-! ### Helper lemmas -/

theorem flatMapFilterCons {α β : Type} (p : α → Bool) (f : α → List β)
    (c : α) (rest : List α) :
    ((c :: rest).filter p).flatMap f =
      (if p c = true then f c else []) ++ ((rest.filter p).flatMap f) := by
  by_cases h : p c = true <;> simp [List.filter_cons, h]

/-- The sequentially built `result` list of the source coincides with
the ordered, filtered category view. -/
theorem sysupgradeLines_eq_blocks (cfg : Config) (ii : InstallInfoFetcher)
    (verbose manual : Bool) :
    sysupgradeLines cfg ii verbose manual =
      sysupgradeBlocks cfg ii verbose manual := by
  simp only [sysupgradeBlocks, emittedCategories, categoryOrderList,
    flatMapFilterCons, List.filter_nil]
  simp only [sysupgradeLines, categoryHeader, categoryBody, categoryPrintRepo,
    categoryPackages, Bool.not_eq_true', List.isEmpty_eq_false,
    List.flatMap_nil, List.append_nil, List.append_assoc]


theorem escFree_append {a b : String} (ha : escFree a) (hb : escFree b) :
    escFree (a ++ b) := by
  intro c hc
  rw [String.data_append] at hc
  rcases List.mem_append.mp hc with h | h
  · exact ha c h
  · exact hb c h

theorem escFree_mk {l : List Char} (h : ∀ c ∈ l, c ≠ escChar) :
    escFree (String.mk l) := h

theorem escFree_joinSep {sep : String} (hsep : escFree sep)
    {xs : List String} (hxs : ∀ x ∈ xs, escFree x) :
    escFree (joinSep sep xs) := by
  induction xs with
  | nil => intro c hc; simp [joinSep] at hc
  | cons x ys ih =>
    cases ys with
    | nil => exact hxs x (by simp)
    | cons y zs =>
      have h1 : escFree x := hxs x (by simp)
      have h2 : escFree (joinSep sep (y :: zs)) :=
        ih (fun z hz => hxs z (List.mem_cons_of_mem x hz))
      exact escFree_append (escFree_append h1 hsep) h2

theorem escFree_spaces (n : Int) : escFree (spaces n) := by
  intro c hc
  have := List.eq_of_mem_replicate hc
  subst this
  decide

theorem digitCh_ne_esc (k : Nat) : digitCh k ≠ escChar := by
  unfold digitCh
  split <;> try decide
  split <;> try decide
  split <;> try decide
  split <;> try decide
  split <;> try decide
  split <;> try decide
  split <;> try decide
  split <;> try decide
  split <;> try decide
  split <;> decide

theorem escFree_natReprAux (f n : Nat) :
    ∀ c ∈ natReprAux f n, c ≠ escChar := by
  induction f generalizing n with
  | zero => intro c hc; simp [natReprAux] at hc
  | succ f ih =>
    intro c hc
    rw [natReprAux] at hc
    split at hc
    · rcases List.mem_singleton.mp hc with rfl
      exact digitCh_ne_esc n
    · rcases List.mem_append.mp hc with h | h
      · exact ih (n / 10) c h
      · rcases List.mem_singleton.mp h with rfl
        exact digitCh_ne_esc (n % 10)

theorem escFree_natRepr (n : Nat) : escFree (natRepr n) := by
  unfold natRepr
  split
  · decide
  · exact escFree_mk (escFree_natReprAux n n)

theorem escFree_padZeros {s : String} (h : escFree s) (w : Nat) :
    escFree (padZeros w s) := by
  refine escFree_append (escFree_mk ?_) h
  intro c hc
  have := List.eq_of_mem_replicate hc
  subst this
  decide

theorem escFree_drop {s : String} (h : escFree s) (n : Nat) :
    escFree (String.mk (s.data.drop n)) :=
  escFree_mk (fun c hc => h c (List.drop_subset n s.data hc))

theorem commonCharPart_subset (a b : List Char) :
    ∀ c ∈ commonCharPart a b, c ∈ a := by
  induction a generalizing b with
  | nil => intro c hc; simp [commonCharPart] at hc
  | cons x xs ih =>
    intro c hc
    cases b with
    | nil => simp [commonCharPart] at hc
    | cons y ys =>
      rw [commonCharPart] at hc
      by_cases hxy : x = y
      · rw [if_pos hxy] at hc
        rcases List.mem_cons.mp hc with rfl | h
        · exact List.mem_cons_self _ _
        · exact List.mem_cons_of_mem _ (ih ys c h)
      · rw [if_neg hxy] at hc
        simp at hc

theorem keepToLastDelim_subset (cs : List Char) :
    ∀ c ∈ keepToLastDelim cs, c ∈ cs := by
  intro c hc
  unfold keepToLastDelim at hc
  rw [List.mem_reverse] at hc
  have := (List.dropWhile_sublist (l := cs.reverse)
    (fun c => !(decide (c ∈ versionDelims)))).subset
  have h2 := (List.dropWhile_sublist (l := cs.reverse)
    (fun c => decide (¬ c ∈ versionDelims))).subset hc
  exact List.mem_reverse.mp h2

theorem escFree_get_common_version {a b : String} (ha : escFree a) :
    escFree (get_common_version a b).1 := by
  unfold get_common_version
  split
  · exact ha
  · exact escFree_mk (fun c hc =>
      ha c (commonCharPart_subset a.data b.data c
        (keepToLastDelim_subset _ c hc)))

theorem escFree_get_version_diff {full : String} (h : escFree full)
    (common : String) : escFree (get_version_diff full common) :=
  escFree_drop h common.length


theorem cl_false (s : String) (n : Nat) : cl false s n = s := rfl

theorem clNR_false (s : String) (n : Nat) : clNR false s n = s := rfl

theorem bl_false (s : String) : bl false s = s := rfl

theorem fmtParen_false (n : Nat) (inner : String) :
    fmtParen false n inner = " (" ++ inner ++ ")" := rfl

theorem escFree_ite (c : Prop) [Decidable c] {a b : String}
    (ha : escFree a) (hb : escFree b) : escFree (if c then a else b) := by
  split <;> assumption

theorem escFree_ite_pair (c : Prop) [Decidable c] {a b : String × Nat}
    (ha : escFree a.1) (hb : escFree b.1) :
    escFree (if c then a else b).1 := by
  split <;> assumption

/-- With color disabled, the decorated name column is escape free. -/
theorem escFree_decoratedName (printRepo verbose : Bool) {pkg : InstallInfo}
    (h : pkg.EscFree) :
    escFree (decoratedName false printRepo verbose pkg).1 := by
  obtain ⟨hn, hcv, hnv, hr, hrb, hpv, hmo, hrp, hd⟩ := h
  dsimp only [decoratedName, repoMarkedName, cl_false, clNR_false, bl_false,
    fmtParen_false]
  simp only [List.map_id']
  repeat'
    first
    | assumption
    | apply escFree_ite
    | apply escFree_ite_pair
    | apply escFree_append
    | apply escFree_joinSep (by decide)
    | decide

/-- With color disabled, a rendered line is escape free. -/
theorem escFree_renderedLine (cfg : Config) (verbose printRepo : Bool)
    {pkg : InstallInfo} (h : pkg.EscFree) :
    escFree (renderedLine cfg verbose printRepo false pkg) := by
  have hdec := escFree_decoratedName printRepo verbose h
  obtain ⟨hn, hcv, hnv, hr, hrb, hpv, hmo, hrp, hd⟩ := h
  dsimp only [renderedLine, spacingFor, spacing2For, daysOld,
    version_separator, verbosePart, format_paragraph, cl_false]
  repeat'
    first
    | assumption
    | exact escFree_natRepr _
    | exact escFree_mk (escFree_natReprAux _ _)
    | apply escFree_ite
    | apply escFree_append
    | exact escFree_spaces _
    | apply escFree_get_common_version
    | apply escFree_get_version_diff
    | decide

theorem memIteList {α : Type} {c : Prop} [Decidable c] {x : α} {l : List α}
    (h : x ∈ if c then l else []) : x ∈ l := by
  split at h
  · exact h
  · simp at h

/-- With color disabled, a whole formatted upgrade set is escape free. -/
theorem escFree_pfu (cfg : Config) (pkgs : List InstallInfo)
    (verbose printRepo : Bool) (h : ∀ p ∈ pkgs, p.EscFree) :
    escFree (pretty_format_upgradeable cfg pkgs verbose printRepo false) := by
  unfold pretty_format_upgradeable
  apply escFree_joinSep (by decide)
  intro x hx
  rcases List.mem_map.mp hx with ⟨pair, hpair, rfl⟩
  unfold upgradeableSorted at hpair
  rw [List.mem_mergeSort] at hpair
  unfold upgradeablePairs at hpair
  rcases List.mem_map.mp hpair with ⟨p, hp, rfl⟩
  exact escFree_renderedLine cfg verbose printRepo (h p hp)

/-- With color disabled, a category header line is escape free. -/
theorem escFree_headerLine {sing plur : String} (idx n : Nat)
    (hs : escFree sing) (hp : escFree plur) :
    escFree (headerLine false idx sing plur n) := by
  unfold headerLine ngettext
  dsimp only [cl_false, bl_false]
  refine escFree_append (escFree_append (escFree_append ?_ ?_) ?_)
    (escFree_ite _ hs hp) <;> decide

/-- The whole manual-selection report is escape free. -/
theorem escFree_sysupgrade_manual (cfg : Config) (ii : InstallInfoFetcher)
    (verbose : Bool) (h : ii.EscFree) :
    escFree (pretty_format_sysupgrade cfg ii verbose true) := by
  obtain ⟨h1, h2, h3, h4, h5, h6, h7, h8⟩ := h
  unfold pretty_format_sysupgrade sysupgradeLines
  dsimp only [Bool.not_true]
  apply escFree_joinSep (by decide)
  intro x hx
  simp only [List.mem_append] at hx
  have hnil : ∀ p ∈ ([] : List InstallInfo), p.EscFree := by
    intro p hp
    simp at hp
  rcases hx with ((((((((hx | hx) | hx) | hx) | hx) | hx) | hx) | hx) | hx)
  all_goals first
    | (rcases List.mem_cons.mp (memIteList hx) with rfl | hx2
       · apply escFree_headerLine <;> decide
       · rcases List.mem_cons.mp hx2 with rfl | hx3
         · apply escFree_pfu
           assumption
         · simp at hx3)
    | (rcases List.mem_singleton.mp hx with rfl; decide)



theorem charEqOfToNatEq {a b : Char} (h : a.toNat = b.toNat) : a = b := by
  apply Char.ext
  exact UInt32.toNat.inj h

theorem pyStrLtL_irrefl (l : List Char) : pyStrLtL l l = false := by
  induction l with
  | nil => rfl
  | cons a as ih => simp [pyStrLtL, ih]

theorem pyStrLtL_trans {a b c : List Char} (h1 : pyStrLtL a b = true)
    (h2 : pyStrLtL b c = true) : pyStrLtL a c = true := by
  induction a generalizing b c with
  | nil =>
    cases c with
    | nil =>
      cases b with
      | nil => exact h1
      | cons y ys => simp [pyStrLtL] at h2
    | cons z zs => rfl
  | cons x xs ih =>
    cases b with
    | nil => simp [pyStrLtL] at h1
    | cons y ys =>
      cases c with
      | nil => simp [pyStrLtL] at h2
      | cons z zs =>
        rw [pyStrLtL] at h1 h2 ⊢
        by_cases hxy : x.toNat < y.toNat
        · by_cases hyz : y.toNat < z.toNat
          · rw [if_pos (by omega)]
          · rw [if_pos hxy] at h1
            rw [if_neg hyz] at h2
            by_cases hzy : z.toNat < y.toNat
            · simp [hzy] at h2
            · have : y.toNat = z.toNat := by omega
              rw [if_pos (by omega)]
        · rw [if_neg hxy] at h1
          by_cases hyx : y.toNat < x.toNat
          · simp [hyx] at h1
          · have hxy2 : x.toNat = y.toNat := by omega
            by_cases hyz : y.toNat < z.toNat
            · rw [if_pos (by omega)]
            · rw [if_neg hyz] at h2
              by_cases hzy : z.toNat < y.toNat
              · simp [hzy] at h2
              · rw [if_neg (by omega), if_neg (by omega)]
                exact ih (by simpa [hyx] using h1) (by simpa [hzy] using h2)

theorem pyStrLtL_eq_of_not_lt {a b : List Char} (h1 : pyStrLtL a b = false)
    (h2 : pyStrLtL b a = false) : a = b := by
  induction a generalizing b with
  | nil =>
    cases b with
    | nil => rfl
    | cons y ys => simp [pyStrLtL] at h1
  | cons x xs ih =>
    cases b with
    | nil => simp [pyStrLtL] at h2
    | cons y ys =>
      rw [pyStrLtL] at h1 h2
      by_cases hxy : x.toNat < y.toNat
      · simp [hxy] at h1
      · by_cases hyx : y.toNat < x.toNat
        · simp [hyx] at h2
        · rw [if_neg hxy, if_neg hyx] at h1
          rw [if_neg hyx, if_neg hxy] at h2
          have hx : x = y := charEqOfToNatEq (by omega)
          rw [hx, ih h1 h2]

theorem pyStrLe_trans {a b c : String} (h1 : pyStrLe a b = true)
    (h2 : pyStrLe b c = true) : pyStrLe a c = true := by
  unfold pyStrLe pyStrLt at h1 h2 ⊢
  simp only [Bool.not_eq_true'] at h1 h2 ⊢
  by_cases hca : pyStrLtL c.data a.data = true
  · by_cases hba : pyStrLtL b.data a.data = true
    · simp [hba] at h1
    · by_cases hab : pyStrLtL a.data b.data = true
      · have := pyStrLtL_trans hca hab
        simp [this] at h2
      · have : a.data = b.data :=
          pyStrLtL_eq_of_not_lt (by simpa using hab) h1
        rw [← this] at h2
        simp [hca] at h2
  · simpa using hca

theorem pyStrLe_total (a b : String) : (pyStrLe a b || pyStrLe b a) = true := by
  unfold pyStrLe pyStrLt
  by_cases h1 : pyStrLtL b.data a.data = true
  · by_cases h2 : pyStrLtL a.data b.data = true
    · have := pyStrLtL_trans h1 h2
      rw [pyStrLtL_irrefl] at this
      simp at this
    · simp [h2]
  · simp [h1]

theorem pyStrLe_refl (a : String) : pyStrLe a a = true := by
  unfold pyStrLe pyStrLt
  simp [pyStrLtL_irrefl]

/-- A stable sort leaves the subsequence of records with any fixed key
untouched: filtering the sorted list by a predicate whose satisfying
elements are pairwise tied gives the filter of the input. -/
theorem mergeSort_filter_eq {α : Type} (le : α → α → Bool)
    (htrans : ∀ a b c, le a b = true → le b c = true → le a c = true)
    (htotal : ∀ a b, (le a b || le b a) = true)
    (p : α → Bool) (hp : ∀ a b, p a = true → p b = true → le a b = true)
    (l : List α) :
    (l.mergeSort le).filter p = l.filter p := by
  have hpw : (l.filter p).Pairwise (fun a b => le a b = true) := by
    apply List.pairwise_of_forall_mem_list
    intro a ha b hb
    exact hp a b (List.mem_filter.mp ha).2 (List.mem_filter.mp hb).2
  have hsub : (l.filter p).Sublist (l.mergeSort le) :=
    List.sublist_mergeSort htrans htotal hpw (List.filter_sublist l)
  have hsub2 : ((l.filter p).filter p).Sublist ((l.mergeSort le).filter p) :=
    List.Sublist.filter p hsub
  rw [List.filter_filter] at hsub2
  have hff : (l.filter (fun a => p a && p a)) = l.filter p := by
    apply List.filter_congr
    intro a _
    cases p a <;> rfl
  rw [hff] at hsub2
  have hperm : ((l.mergeSort le).filter p).Perm (l.filter p) :=
    List.Perm.filter p (List.mergeSort_perm l le)
  exact (List.Sublist.eq_of_length hsub2 hperm.length_eq.symm).symm



theorem natReprAux_d1 {n : Nat} (h2 : n < 10) {f : Nat} (hf : 1 ≤ f) :
    natReprAux f n = [digitCh n] := by
  cases f with
  | zero => omega
  | succ f => rw [natReprAux, if_pos h2]

theorem natReprAux_d2 {n : Nat} (h1 : 10 ≤ n) (h2 : n < 100) {f : Nat}
    (hf : 2 ≤ f) :
    natReprAux f n = [digitCh (n / 10), digitCh (n % 10)] := by
  cases f with
  | zero => omega
  | succ f =>
    rw [natReprAux, if_neg (by omega),
      natReprAux_d1 (by omega) (by omega)]
    rfl

theorem natReprAux_d3 {n : Nat} (h1 : 100 ≤ n) (h2 : n < 1000) {f : Nat}
    (hf : 3 ≤ f) :
    natReprAux f n =
      [digitCh (n / 100), digitCh (n / 10 % 10), digitCh (n % 10)] := by
  cases f with
  | zero => omega
  | succ f =>
    rw [natReprAux, if_neg (by omega),
      natReprAux_d2 (by omega) (by omega) (by omega),
      Nat.div_div_eq_div_mul]
    rfl

theorem natReprAux_d4 {n : Nat} (h1 : 1000 ≤ n) (h2 : n < 10000) {f : Nat}
    (hf : 4 ≤ f) :
    natReprAux f n = [digitCh (n / 1000), digitCh (n / 100 % 10),
      digitCh (n / 10 % 10), digitCh (n % 10)] := by
  cases f with
  | zero => omega
  | succ f =>
    rw [natReprAux, if_neg (by omega),
      natReprAux_d3 (by omega) (by omega) (by omega),
      Nat.div_div_eq_div_mul, Nat.div_div_eq_div_mul]
    rfl


theorem mk_append_mk (l1 l2 : List Char) :
    String.mk l1 ++ String.mk l2 = String.mk (l1 ++ l2) := rfl

theorem padZeros4_eq_dig4 {n : Nat} (h : n < 10000) :
    padZeros 4 (natRepr n) = String.mk (dig4 n) := by
  unfold padZeros dig4
  rcases Nat.lt_or_ge n 1 with h1 | h1
  · have : n = 0 := by omega
    subst this
    decide
  rcases Nat.lt_or_ge n 10 with h2 | h2
  · rw [natRepr, if_neg (by omega), natReprAux_d1 h2 (by omega)]
    have e3 : n / 1000 = 0 := by omega
    have e2 : n / 100 % 10 = 0 := by omega
    have e1 : n / 10 % 10 = 0 := by omega
    have e0 : n % 10 = n := by omega
    rw [e3, e2, e1, e0]
    rfl
  rcases Nat.lt_or_ge n 100 with h3 | h3
  · rw [natRepr, if_neg (by omega), natReprAux_d2 h2 h3 (by omega)]
    have e3 : n / 1000 = 0 := by omega
    have e2 : n / 100 % 10 = 0 := by omega
    have e1 : n / 10 % 10 = n / 10 := by omega
    rw [e3, e2, e1]
    rfl
  rcases Nat.lt_or_ge n 1000 with h4 | h4
  · rw [natRepr, if_neg (by omega), natReprAux_d3 h3 h4 (by omega)]
    have e3 : n / 1000 = 0 := by omega
    have e2 : n / 100 % 10 = n / 100 := by omega
    rw [e3, e2]
    rfl
  · rw [natRepr, if_neg (by omega), natReprAux_d4 h4 h (by omega)]
    rfl

theorem digitCh_toNat {k : Nat} (h : k ≤ 9) : (digitCh k).toNat = 48 + k := by
  interval_cases k <;> decide

theorem dig4_lt {a b : Nat} (hb : b < 10000) (hab : a < b) :
    pyStrLtL (dig4 a) (dig4 b) = true := by
  unfold dig4
  rw [pyStrLtL, digitCh_toNat (by omega), digitCh_toNat (by omega)]
  rcases Nat.lt_trichotomy (a / 1000) (b / 1000) with h3 | h3 | h3
  · rw [if_pos (by omega)]
  · rw [if_neg (by omega), if_neg (by omega)]
    rw [pyStrLtL, digitCh_toNat (by omega), digitCh_toNat (by omega)]
    rcases Nat.lt_trichotomy (a / 100 % 10) (b / 100 % 10) with h2 | h2 | h2
    · rw [if_pos (by omega)]
    · rw [if_neg (by omega), if_neg (by omega)]
      rw [pyStrLtL, digitCh_toNat (by omega), digitCh_toNat (by omega)]
      rcases Nat.lt_trichotomy (a / 10 % 10) (b / 10 % 10) with h1 | h1 | h1
      · rw [if_pos (by omega)]
      · rw [if_neg (by omega), if_neg (by omega)]
        rw [pyStrLtL, digitCh_toNat (by omega), digitCh_toNat (by omega)]
        rw [if_pos (by omega)]
      · omega
    · omega
  · omega

theorem pyStrLtL_append_of_lt {u v : List Char} (hlen : u.length = v.length)
    (h : pyStrLtL u v = true) (s t : List Char) :
    pyStrLtL (u ++ s) (v ++ t) = true := by
  induction u generalizing v with
  | nil =>
    cases v with
    | nil => simp [pyStrLtL] at h
    | cons y ys => simp at hlen
  | cons x xs ih =>
    cases v with
    | nil => simp at hlen
    | cons y ys =>
      rw [pyStrLtL] at h
      rw [List.cons_append, List.cons_append, pyStrLtL]
      by_cases h1 : x.toNat < y.toNat
      · rw [if_pos h1]
      · rw [if_neg h1] at h ⊢
        by_cases h2 : y.toNat < x.toNat
        · simp [h2] at h
        · rw [if_neg h2] at h ⊢
          exact ih (by simpa using hlen) h

theorem pyStrLtL_append_same (u s t : List Char) :
    pyStrLtL (u ++ s) (u ++ t) = pyStrLtL s t := by
  induction u with
  | nil => rfl
  | cons x xs ih =>
    rw [List.cons_append, List.cons_append, pyStrLtL,
      if_neg (Nat.lt_irrefl _), if_neg (Nat.lt_irrefl _)]
    exact ih



theorem pad4_eq_dig4 {k : Int} (h0 : 0 ≤ k) (h : k < 10000) :
    pad4 k = String.mk (dig4 k.toNat) := by
  unfold pad4
  rw [if_pos h0]
  exact padZeros4_eq_dig4 (by omega)

theorem upgradeLe_trans (a b c : String × String) (h1 : upgradeLe a b = true)
    (h2 : upgradeLe b c = true) : upgradeLe a c = true :=
  pyStrLe_trans h1 h2

theorem upgradeLe_total (a b : String × String) :
    (upgradeLe a b || upgradeLe b a) = true :=
  pyStrLe_total a.2 b.2

theorem sortKey_default {cfg : Config} (hm1 : cfg.upgrade_sorting ≠ "pkgname")
    (hm2 : cfg.upgrade_sorting ≠ "repo") (p : InstallInfo) :
    sortByOf cfg p =
      pad4 (9999 - ((get_common_version p.current_version p.new_version).2 : Int))
        ++ p.name := by
  unfold sortByOf
  rw [if_neg hm1, if_neg hm2]

theorem sortKey_diffweight_lt {cfg : Config}
    (hm1 : cfg.upgrade_sorting ≠ "pkgname") (hm2 : cfg.upgrade_sorting ≠ "repo")
    {p q : InstallInfo}
    (hwp : (get_common_version p.current_version p.new_version).2 ≤ 9999)
    (hwq : (get_common_version q.current_version q.new_version).2 ≤ 9999)
    (hlt : (get_common_version q.current_version q.new_version).2 <
      (get_common_version p.current_version p.new_version).2) :
    pyStrLt (sortByOf cfg p) (sortByOf cfg q) = true := by
  rw [sortKey_default hm1 hm2, sortKey_default hm1 hm2]
  rw [pad4_eq_dig4 (by omega) (by omega), pad4_eq_dig4 (by omega) (by omega)]
  unfold pyStrLt
  rw [String.data_append, String.data_append]
  apply pyStrLtL_append_of_lt
  · rfl
  · exact dig4_lt (by omega) (by omega)

theorem sortKey_diffweight_tie {cfg : Config}
    (hm1 : cfg.upgrade_sorting ≠ "pkgname") (hm2 : cfg.upgrade_sorting ≠ "repo")
    {p q : InstallInfo}
    (heq : (get_common_version p.current_version p.new_version).2 =
      (get_common_version q.current_version q.new_version).2) :
    pyStrLt (sortByOf cfg p) (sortByOf cfg q) = pyStrLt p.name q.name := by
  rw [sortKey_default hm1 hm2, sortKey_default hm1 hm2, heq]
  unfold pyStrLt
  rw [String.data_append, String.data_append]
  exact pyStrLtL_append_same _ _ _


/-! ### Claims -/

/-- C1: for every input to the sysupgrade report builder, the non-empty
categories are emitted in exactly the fixed order repo-replacement,
thirdparty-replacement, repo-update, repo-new-dep, thirdparty-update,
thirdparty-new-dep, aur-update, aur-new-dep, and every empty category is
skipped entirely, no header line being printed for it: the report is
precisely the headers and bodies of the non-empty categories taken in
that order, followed by the trailing blank line. -/
theorem sysupgrade_fixed_category_order (cfg : Config)
    (ii : InstallInfoFetcher) (verbose manual : Bool) :
    pretty_format_sysupgrade cfg ii verbose manual =
      joinSep "\n" (sysupgradeBlocks cfg ii verbose manual ++ [""]) ∧
    sysupgradeLines cfg ii verbose manual =
      sysupgradeBlocks cfg ii verbose manual := by
  constructor
  · unfold pretty_format_sysupgrade
    rw [sysupgradeLines_eq_blocks]
  · exact sysupgradeLines_eq_blocks cfg ii verbose manual

/-- C2: with manual package selection enabled, the report emits none of
the three new-dependency categories — its category sequence contains no
new-dependency entry and the output does not depend on the supplied
new-dependency records — and, all input strings being free of escape
characters, the produced text contains no color escape sequence at all. -/
theorem manual_selection_no_new_deps_no_color (cfg : Config)
    (ii : InstallInfoFetcher) (verbose : Bool) (h : ii.EscFree) :
    escFree (pretty_format_sysupgrade cfg ii verbose true) ∧
    (∀ c ∈ emittedCategories ii true,
      c ≠ UpgradeCategory.repoNewDep ∧
      c ≠ UpgradeCategory.thirdpartyNewDep ∧
      c ≠ UpgradeCategory.aurNewDep) ∧
    (∀ nr nt na : List InstallInfo,
      pretty_format_sysupgrade cfg
        { ii with new_repo_deps_install_info := nr,
                  new_thirdparty_repo_deps_install_info := nt,
                  aur_deps_install_info := na } verbose true =
        pretty_format_sysupgrade cfg ii verbose true) := by
  refine ⟨escFree_sysupgrade_manual cfg ii verbose h, ?_, ?_⟩
  · intro c hc
    have h2 := (List.mem_filter.mp hc).2
    cases c <;> simp_all [categoryPackages]
  · intro nr nt na
    rfl

/-- C3: the upgrade-set formatter sorts records by a per-mode sort key —
name for pkgname mode, repository ++ name for repo mode, zero-padded
(9999 - diff weight) ++ name by default, so larger diff weights sort
first with ties broken alphabetically by name — ascending under Python's
string order, stably (records with equal keys keep their input order). -/
theorem upgrade_sorting_modes (cfg : Config) (verbose printRepo color : Bool)
    (pkgs : List InstallInfo) :
    (pretty_format_upgradeable cfg pkgs verbose printRepo color =
      joinSep "\n" ((upgradeableSorted cfg verbose printRepo color pkgs).map
        (fun x => x.1))) ∧
    (upgradeableSorted cfg verbose printRepo color pkgs).Pairwise
      (fun a b => pyStrLe a.2 b.2 = true) ∧
    (upgradeableSorted cfg verbose printRepo color pkgs).Perm
      (upgradeablePairs cfg verbose printRepo color pkgs) ∧
    (∀ k : String,
      (upgradeableSorted cfg verbose printRepo color pkgs).filter
          (fun x => x.2 == k) =
        (upgradeablePairs cfg verbose printRepo color pkgs).filter
          (fun x => x.2 == k)) ∧
    (cfg.upgrade_sorting = "pkgname" →
      ∀ p : InstallInfo, sortByOf cfg p = p.name) ∧
    (cfg.upgrade_sorting = "repo" →
      ∀ p : InstallInfo, sortByOf cfg p = p.repository ++ p.name) ∧
    (cfg.upgrade_sorting ≠ "pkgname" → cfg.upgrade_sorting ≠ "repo" →
      ∀ p : InstallInfo, sortByOf cfg p =
        pad4 (9999 -
          ((get_common_version p.current_version p.new_version).2 : Int)) ++
          p.name) ∧
    (cfg.upgrade_sorting ≠ "pkgname" → cfg.upgrade_sorting ≠ "repo" →
      ∀ p q : InstallInfo,
        (get_common_version p.current_version p.new_version).2 ≤ 9999 →
        (get_common_version q.current_version q.new_version).2 ≤ 9999 →
        ((get_common_version q.current_version q.new_version).2 <
            (get_common_version p.current_version p.new_version).2 →
          pyStrLt (sortByOf cfg p) (sortByOf cfg q) = true) ∧
        ((get_common_version p.current_version p.new_version).2 =
            (get_common_version q.current_version q.new_version).2 →
          pyStrLt (sortByOf cfg p) (sortByOf cfg q) =
            pyStrLt p.name q.name)) := by
  refine ⟨rfl, ?_, ?_, ?_, ?_, ?_, ?_, ?_⟩
  · exact List.sorted_mergeSort upgradeLe_trans upgradeLe_total _
  · exact List.mergeSort_perm _ _
  · intro k
    apply mergeSort_filter_eq upgradeLe upgradeLe_trans upgradeLe_total
    intro a b ha hb
    have ha2 : a.2 = k := by simpa [beq_iff_eq] using ha
    have hb2 : b.2 = k := by simpa [beq_iff_eq] using hb
    unfold upgradeLe
    rw [ha2, hb2]
    exact pyStrLe_refl k
  · intro hm p
    unfold sortByOf
    rw [if_pos hm]
  · intro hm p
    unfold sortByOf
    rw [if_neg (by simp [hm]), if_pos hm]
  · intro hm1 hm2 p
    exact sortKey_default hm1 hm2 p
  · intro hm1 hm2 p q hwp hwq
    exact ⟨fun hlt => sortKey_diffweight_lt hm1 hm2 hwp hwq hlt,
      fun heq => sortKey_diffweight_tie hm1 hm2 heq⟩

/-- Witness for the sorting claim: under the default diff-weight mode,
the key of the two-segment change "foo" precedes the key of the
one-segment change "bar". -/
theorem upgrade_sorting_modes_witness :
    sampleCfg.upgrade_sorting ≠ "pkgname" ∧
    sampleCfg.upgrade_sorting ≠ "repo" ∧
    (get_common_version samplePkgFoo.current_version
      samplePkgFoo.new_version).2 ≤ 9999 ∧
    (get_common_version samplePkgBar.current_version
      samplePkgBar.new_version).2 ≤ 9999 ∧
    (get_common_version samplePkgBar.current_version
      samplePkgBar.new_version).2 <
      (get_common_version samplePkgFoo.current_version
        samplePkgFoo.new_version).2 ∧
    pyStrLt (sortByOf sampleCfg samplePkgFoo)
      (sortByOf sampleCfg samplePkgBar) = true :=
  ⟨by decide, by decide, by decide, by decide, by decide,
    ((upgrade_sorting_modes sampleCfg false false false
          [samplePkgFoo, samplePkgBar]).2.2.2.2.2.2.2
        (by decide) (by decide) samplePkgFoo samplePkgBar
        (by decide) (by decide)).1 (by decide)⟩

/-- C4 (code bug): at a fetcher holding exactly one third-party
replacement record and no repository updates, the emitted third-party
replacement header is the plural label although the category holds one
record — the source passes the repository-updates count, not the
category's own record count, to the pluraliser. -/
theorem thirdparty_replacement_header_plural_for_one :
    (sysupgradeLines sampleCfg c4Fetcher false false).head? =
      some ("\n" ++ color_line "::" 12 ++ " " ++ bold_line
        "Third-party repository packages suggested as a replacement:") ∧
    c4Fetcher.thirdparty_repo_replacements_install_info.length = 1 ∧
    ngettext "Third-party repository package suggested as a replacement:"
      "Third-party repository packages suggested as a replacement:" 1 =
      "Third-party repository package suggested as a replacement:" := by
  refine ⟨rfl, rfl, rfl⟩

/-- C6: the version-arrow separator is the empty string exactly when
both versions are empty, the arrow `" -> "` otherwise, and every record
— both-empty versions included — still renders to a line. -/
theorem version_separator_omitted_iff_both_empty (pkg : InstallInfo) :
    version_separator pkg =
      (if pkg.current_version = "" ∧ pkg.new_version = "" then ""
       else " -> ") ∧
    ∀ (cfg : Config) (verbose printRepo color : Bool),
      1 ≤ (renderedLine cfg verbose printRepo color pkg).length := by
  constructor
  · unfold version_separator
    by_cases h : pkg.current_version = "" ∧ pkg.new_version = ""
    · rw [if_neg (by tauto), if_pos h]
    · rw [if_pos (by tauto), if_neg h]
  · intro cfg verbose printRepo color
    unfold renderedLine
    simp only [String.length_append]
    have h1 : (" " : String).length = 1 := rfl
    omega



theorem tdiv_five_eq_trunc (a : Int) :
    Int.tdiv a 5 =
      (if (0:ℚ) ≤ (a : ℚ) / 5 then ⌊(a : ℚ) / 5⌋ else ⌈(a : ℚ) / 5⌉) := by
  rcases le_or_lt 0 a with ha | ha
  · rw [if_pos (by positivity)]
    rw [Int.tdiv_eq_ediv ha (by norm_num)]
    rw [show ((5:ℚ)) = ((5:ℕ):ℚ) by norm_num,
      show ((a:ℚ)) = (((a:ℤ)):ℚ) by norm_num]
    rw [Rat.floor_intCast_div_natCast a 5]
    norm_num
  · rw [if_neg]
    · have h1 : Int.tdiv a 5 = -(Int.tdiv (-a) 5) := by
        rw [Int.neg_tdiv, neg_neg]
      rw [h1, Int.tdiv_eq_ediv (by omega) (by norm_num)]
      have h2 : ⌈(a : ℚ) / 5⌉ = -((-a : ℤ) / ((5:ℕ) : ℤ)) := by
        rw [← Rat.floor_intCast_div_natCast (-a) 5,
          show (((-a : ℤ) : ℚ) / ((5:ℕ) : ℚ)) = -((a : ℚ) / 5) by push_cast; ring,
          Int.floor_neg, neg_neg]
      rw [h2]
      norm_num
    · push_neg
      apply div_neg_of_neg_of_pos
      · exact_mod_cast ha
      · norm_num

/-- C7: the name column width is `min(terminalWidth / 2.5, 37)` with the
quotient truncated toward zero, and both padding segments of a rendered
line consist of at least one space — never a negative count — for every
terminal width, degenerate ones included. -/
theorem column_width_and_paddings (w : Int) (pkgLen curLen : Nat) :
    column_width w =
      min (if (0:ℚ) ≤ (w : ℚ) / 2.5 then ⌊(w : ℚ) / 2.5⌋
           else ⌈(w : ℚ) / 2.5⌉) 37 ∧
    1 ≤ (spacingFor w pkgLen).length ∧
    (spacingFor w pkgLen).data.all (fun c => c == ' ') = true ∧
    1 ≤ (spacing2For w curLen pkgLen).length ∧
    (spacing2For w curLen pkgLen).data.all (fun c => c == ' ') = true := by
  refine ⟨?_, ?_, ?_, ?_, ?_⟩
  · unfold column_width
    have hx : (w : ℚ) / 2.5 = ((2 * w : ℤ) : ℚ) / 5 := by
      push_cast
      ring
    rw [hx, ← tdiv_five_eq_trunc]
  · unfold spacingFor spaces
    have h := le_max_left (1 : Int) (column_width w - (pkgLen : Int))
    show (List.replicate _ ' ').length ≥ 1
    rw [List.length_replicate]
    omega
  · unfold spacingFor spaces
    rw [List.all_eq_true]
    intro c hc
    rw [beq_iff_eq]
    exact List.eq_of_mem_replicate hc
  · unfold spacing2For spaces
    have h := le_max_left (1 : Int)
      (column_width w - 18 - (curLen : Int) -
        max (-1) ((pkgLen : Int) - column_width w))
    show (List.replicate _ ' ').length ≥ 1
    rw [List.length_replicate]
    omega
  · unfold spacing2For spaces
    rw [List.all_eq_true]
    intro c hc
    rw [beq_iff_eq]
    exact List.eq_of_mem_replicate hc

/-- C8 counterexample: with showRepo unset but verbose set, a record
with a known repository still gets the colorized repository marker — so
the marker is not shown "exactly when showRepo is set" — and the marker
color is the fixed 13, differing from the name-hash palette color that
pretty_format_repo_name picks for the same repository name (10 for
"extra"). -/
theorem repo_marker_shown_without_showRepo :
    (repoMarkedName true false true c8Pkg).1 =
      color_line "extra/" 13 ++ bold_line "x" ∧
    (repoMarkedName true false true c8Pkg).1 ≠ bold_line "x" ∧
    pretty_format_repo_name "extra" = color_line "extra/" 10 ∧
    (13 : Nat) ≠ 10 := by
  refine ⟨by decide, by decide, by decide, by decide⟩

/-- C8 (amended): the upgrade line formatter prefixes the bold name with
the colorized repository marker exactly when (showRepo or verbose) is
set and the repository is known — in the fixed color 13 — and otherwise
with the fixed-color "aur/" marker exactly when showRepo is set; the
deterministic hash of the repository name into the palette 10..14 is the
coloring used by pretty_format_repo_name (the search-result marker). -/
theorem repo_marker_condition_and_colors (color printRepo verbose : Bool)
    (pkg : InstallInfo) (r : String) :
    (repoMarkedName color printRepo verbose pkg).1 =
      (if (printRepo = true ∨ verbose = true) ∧ pkg.repository ≠ "" then
        cl color (pkg.repository ++ "/") 13
       else if printRepo = true then cl color "aur/" 9 else "") ++
        bl color pkg.name ∧
    pretty_format_repo_name r = color_line (r ++ "/") (r.length % 5 + 10) ∧
    10 ≤ r.length % 5 + 10 ∧ r.length % 5 + 10 ≤ 14 := by
  refine ⟨?_, rfl, by omega, ?_⟩
  · unfold repoMarkedName
    split_ifs <;> rfl
  · have := Nat.mod_lt r.length (show 0 < 5 by norm_num)
    omega

/-- C10: exactly when the record's replaces list is non-empty and color
is disabled, the rendered name field is the reference decoration
prefixed with the two characters "# "; in every other case — color
enabled included — it is the reference decoration itself. -/
theorem replaces_hash_marker_iff_no_color (color printRepo verbose : Bool)
    (pkg : InstallInfo) :
    (decoratedName color printRepo verbose pkg).1 =
      (if pkg.replaces ≠ [] ∧ color = false then "# " else "") ++
        decoratedNameNoHash color printRepo verbose pkg := by
  unfold decoratedName decoratedNameNoHash
  by_cases hr : pkg.replaces ≠ [] <;> by_cases hc : color = false <;>
    simp [hr, hc]



theorem searchGe_trans (a b c : SearchPkg) (h1 : searchGe a b = true)
    (h2 : searchGe b c = true) : searchGe a c = true := by
  simp only [searchGe, decide_eq_true_eq] at h1 h2 ⊢
  exact le_trans h2 h1

theorem searchGe_total (a b : SearchPkg) :
    (searchGe a b || searchGe b a) = true := by
  simp only [searchGe, Bool.or_eq_true, decide_eq_true_eq]
  exact le_total (get_sort_key b) (get_sort_key a)

/-- C5: the search renderer orders records by the relevance key
descending with a stable sort. -/
theorem search_results_sorted_descending_stable (cfg : Config)
    (pkgs : List SearchPkg) (locals : List (String × String))
    (quiet enumerated : Bool) (ef : Nat) :
    (print_package_search_results cfg pkgs locals quiet enumerated ef =
      (searchSorted pkgs).enum.flatMap (fun ip =>
        if quiet then [ip.2.pkgName]
        else [searchLine cfg locals enumerated ef ip.1 ip.2,
              format_paragraph ip.2.pkgDesc])) ∧
    (searchSorted pkgs).Pairwise
      (fun a b => get_sort_key b ≤ get_sort_key a) ∧
    (searchSorted pkgs).Perm pkgs ∧
    (∀ k : ℚ,
      (searchSorted pkgs).filter (fun x => get_sort_key x == k) =
        pkgs.filter (fun x => get_sort_key x == k)) ∧
    (∀ name version desc db groups,
      get_sort_key (SearchPkg.repo name version desc db groups) = 1) ∧
    (∀ i : AURPackageInfo, i.numvotes = none ∨ i.popularity = none →
      get_sort_key (SearchPkg.aur i) = 1) ∧
    (∀ (i : AURPackageInfo) (v : Int) (p : ℚ),
      i.numvotes = some v → i.popularity = some p →
      get_sort_key (SearchPkg.aur i) = ((v : ℚ) + 1) * (p + 1)) := by
  refine ⟨rfl, ?_, ?_, ?_, ?_, ?_, ?_⟩
  · refine (List.sorted_mergeSort searchGe_trans searchGe_total pkgs).imp ?_
    intro a b h
    simpa [searchGe] using h
  · exact List.mergeSort_perm _ _
  · intro k
    apply mergeSort_filter_eq searchGe searchGe_trans searchGe_total
    intro a b ha hb
    have ha2 : get_sort_key a = k := by simpa [beq_iff_eq] using ha
    have hb2 : get_sort_key b = k := by simpa [beq_iff_eq] using hb
    simp [searchGe, ha2, hb2]
  · intro n v d db gs
    rfl
  · intro i h
    obtain ⟨nm, ver, dsc, nv, pop, ood⟩ := i
    rcases h with h | h
    · have h2 : nv = none := h
      subst h2
      cases pop <;> rfl
    · have h2 : pop = none := h
      subst h2
      cases nv <;> rfl
  · intro i v p hv hp
    obtain ⟨nm, ver, dsc, nv, pop, ood⟩ := i
    have hv2 : nv = some v := hv
    have hp2 : pop = some p := hp
    subst hv2
    subst hp2
    rfl

/-- Witness for the relevance-key claim: the metric-bearing AUR record
keys to (10+1)*(2+1) and the metric-free AUR record keys to 1. -/
theorem search_results_sorted_witness :
    c5Aur.numvotes = some 10 ∧ c5Aur.popularity = some 2 ∧
    get_sort_key (SearchPkg.aur c5Aur) = ((10 : ℚ) + 1) * ((2 : ℚ) + 1) ∧
    get_sort_key c9Pkg = 1 :=
  ⟨rfl, rfl,
    (search_results_sorted_descending_stable sampleCfg [] [] false false
        0).2.2.2.2.2.2 c5Aur 10 2 rfl rfl,
    (search_results_sorted_descending_stable sampleCfg [] [] false false
        0).2.2.2.2.2.1 { name := "x", version := "1" } (Or.inl rfl)⟩

/-- C9 counterexample: with enumeration enabled and the default
enumerate_from value 0, the single record's line carries the bolded
prefix "0) " — the first record in the sorted output is numbered 0,
not 1. -/
theorem search_enumeration_default_zero_based :
    print_package_search_results sampleCfg [c9Pkg] [] false true 0 =
      [bold_line "0) " ++ color_line "aur/" 9 ++ bold_line "x" ++ " " ++
        color_line "1" 10 ++ " ", format_paragraph ""] ∧
    (print_package_search_results sampleCfg [c9Pkg] [] false true 0).head? ≠
      some (bold_line "1) " ++ color_line "aur/" 9 ++ bold_line "x" ++ " " ++
        color_line "1" 10 ++ " ") := by
  constructor
  · unfold print_package_search_results searchSorted
    rw [List.mergeSort_singleton]
    decide
  · unfold print_package_search_results searchSorted
    rw [List.mergeSort_singleton]
    decide

theorem strDataExt {a b : String} (h : a.data = b.data) : a = b :=
  congrArg String.mk h

/-- C9 (amended): each non-quiet search line for the record at 0-based
sorted position i begins with the bolded enumeration prefix
(i + enumerate_from) — numbering starts at enumerate_from, so the
default 0 yields 0-based numbering and 1-based numbering requires
enumerate_from = 1. -/
theorem search_enumeration_offset (cfg : Config)
    (locals : List (String × String)) (pkgs : List SearchPkg)
    (quiet : Bool) (ef i : Nat) (pkg : SearchPkg) :
    searchLine cfg locals true ef i pkg =
      bold_line (natRepr (i + ef) ++ ") ") ++
        searchLine cfg locals false ef i pkg ∧
    print_package_search_results cfg pkgs locals quiet true ef =
      (searchSorted pkgs).enum.flatMap (fun ip =>
        if quiet then [ip.2.pkgName]
        else [searchLine cfg locals true ef ip.1 ip.2,
              format_paragraph ip.2.pkgDesc]) := by
  constructor
  · apply strDataExt
    simp [searchLine, searchIdxStr, String.data_append, List.append_assoc]
  · rfl

/-- Witness for the manual-selection claim at a concrete fetcher. -/
theorem manual_selection_no_new_deps_no_color_witness :
    InstallInfoFetcher.EscFree sampleFetcher ∧
    (escFree (pretty_format_sysupgrade sampleCfg sampleFetcher false true) ∧
     (∀ c ∈ emittedCategories sampleFetcher true,
        c ≠ UpgradeCategory.repoNewDep ∧
        c ≠ UpgradeCategory.thirdpartyNewDep ∧
        c ≠ UpgradeCategory.aurNewDep) ∧
     (∀ nr nt na : List InstallInfo,
        pretty_format_sysupgrade sampleCfg
          { sampleFetcher with
              new_repo_deps_install_info := nr,
              new_thirdparty_repo_deps_install_info := nt,
              aur_deps_install_info := na } false true =
          pretty_format_sysupgrade sampleCfg sampleFetcher false true)) :=
  ⟨by decide,
    manual_selection_no_new_deps_no_color sampleCfg sampleFetcher false
      (by decide)⟩

end Pikaur
